import Mathlib

/-!
Shallow embedding of the social-spread-form repository
(src/src/components/SocialMediaForm.tsx and the two unnamed variants,
whose handler logic is line-for-line identical): the zod form schema,
the image attachment handlers, the submission dispatcher and the
AI-assist dispatcher, together with proofs about the spec's claims.
-/

/-- A locally selected file, as the handlers see it: its MIME type
string (`file.type`) and its byte size (`file.size`). -/
structure SMFile where
  type : String
  size : Nat
deriving DecidableEq, Repr

/-- The per-file acceptance predicate from `handleImageUpload`:
`(file.type === 'image/jpeg' || file.type === 'image/png') && file.size <= 10 * 1024 * 1024`. -/
def isValidFile (f : SMFile) : Bool :=
  (f.type == "image/jpeg" || f.type == "image/png") && decide (f.size ≤ 10 * 1024 * 1024)

/-- Result of one `handleImageUpload` call: the new `uploadedImages`
state and whether the destructive "Too many images" toast fired. -/
structure UploadResult where
  images : List SMFile
  tooManyToast : Bool
deriving DecidableEq, Repr

/-- `handleImageUpload` from SocialMediaForm.tsx: filter the candidate
batch by `isValidFile` first, then reject (toast, list unchanged) when
`validFiles.length + uploadedImages.length > 4`, else append the
filtered files. -/
def handleImageUpload (uploadedImages : List SMFile) (files : List SMFile) : UploadResult :=
  let validFiles := files.filter isValidFile
  if validFiles.length + uploadedImages.length > 4 then
    ⟨uploadedImages, true⟩
  else
    ⟨uploadedImages ++ validFiles, false⟩

/-- `removeImage` from SocialMediaForm.tsx:
`setUploadedImages(prev => prev.filter((_, i) => i !== index))`. -/
def removeImage (uploadedImages : List SMFile) (index : Nat) : List SMFile :=
  (uploadedImages.enum.filter (fun p => p.1 != index)).map Prod.snd

/-- The form field values held by react-hook-form. `hashtags` is
optional in the schema and `scheduledDate` has no default value, so
both are `Option`; the remaining fields default to empty values. -/
structure FormValues where
  postTitle : String
  caption : String
  hashtags : Option String
  platforms : List String
  scheduledDate : Option Nat
  webhookUrl : String
deriving DecidableEq, Repr

/-- The `defaultValues` passed to `useForm`: empty strings, empty
platform list, no scheduled date. -/
def defaultValues : FormValues :=
  { postTitle := ""
    caption := ""
    hashtags := some ""
    platforms := []
    scheduledDate := none
    webhookUrl := "" }

/-- Split a character list at the first occurrence of `://`, returning
the scheme part and the remainder. -/
def splitSchemeAux (acc : List Char) : List Char → Option (List Char × List Char)
  | ':' :: '/' :: '/' :: rest => some (acc.reverse, rest)
  | c :: rest => splitSchemeAux (c :: acc) rest
  | [] => none

/-- Models `z.string().url()`: the string must parse as a syntactically
valid absolute URL, i.e. a nonempty scheme, the literal `://`, and a
nonempty remainder. -/
def isValidUrl (s : String) : Bool :=
  match splitSchemeAux [] s.data with
  | some (scheme, rest) => !scheme.isEmpty && !rest.isEmpty
  | none => false

/-- Per-field validation messages produced by resolving `formSchema`
against the current form values (the `hashtags` field has no rule and
therefore no error slot). -/
structure FieldErrors where
  postTitle : List String
  caption : List String
  platforms : List String
  scheduledDate : List String
  webhookUrl : List String
deriving DecidableEq, Repr

/-- `formSchema` from SocialMediaForm.tsx, resolved on a draft: every
violated rule contributes its message to its own field. -/
def validateForm (d : FormValues) : FieldErrors :=
  { postTitle :=
      (if d.postTitle.length < 1 then ["Post title is required"] else []) ++
      (if d.postTitle.length > 100 then ["Post title must be under 100 characters"] else [])
    caption :=
      (if d.caption.length < 1 then ["Caption is required"] else []) ++
      (if d.caption.length > 2200 then ["Caption must be under 2200 characters"] else [])
    platforms :=
      if d.platforms.length < 1 then ["Select at least one platform"] else []
    scheduledDate :=
      match d.scheduledDate with
      | none => ["Please select a date and time for posting"]
      | some _ => []
    webhookUrl :=
      if isValidUrl d.webhookUrl then [] else ["Please enter a valid webhook URL"] }

/-- True when any field carries a validation error. -/
def hasErrors (e : FieldErrors) : Bool :=
  !e.postTitle.isEmpty || !e.caption.isEmpty || !e.platforms.isEmpty ||
  !e.scheduledDate.isEmpty || !e.webhookUrl.isEmpty

/-- Left-pad the decimal rendering of `n` with zeros to width `w`. -/
def padZeros (w : Nat) (n : Nat) : String :=
  let s := toString n
  String.mk (List.replicate (w - s.length) '0') ++ s

/-- Civil date (year, month, day) of a day count since 1970-01-01, by
the standard era decomposition of the proleptic Gregorian calendar. -/
def civilFromDays (z0 : Nat) : Nat × Nat × Nat :=
  let z := z0 + 719468
  let era := z / 146097
  let doe := z % 146097
  let yoe := (doe - doe / 1460 + doe / 36524 - doe / 146096) / 365
  let doy := doe - (365 * yoe + yoe / 4 - yoe / 100)
  let mp := (5 * doy + 2) / 153
  let d := doy - (153 * mp + 2) / 5 + 1
  let m := if mp < 10 then mp + 3 else mp - 9
  let y := yoe + era * 400 + (if m ≤ 2 then 1 else 0)
  (y, m, d)

/-- Models the platform `Date.prototype.toISOString` on a timestamp of
nonnegative milliseconds since the Unix epoch:
`YYYY-MM-DDTHH:MM:SS.mmmZ` in UTC. -/
def toISOString (ms : Nat) : String :=
  let days := ms / 86400000
  let rem := ms % 86400000
  let ymd := civilFromDays days
  let hh := rem / 3600000
  let mi := rem % 3600000 / 60000
  let ss := rem % 60000 / 1000
  let mmm := rem % 1000
  padZeros 4 ymd.1 ++ "-" ++ padZeros 2 ymd.2.1 ++ "-" ++ padZeros 2 ymd.2.2 ++
  "T" ++ padZeros 2 hh ++ ":" ++ padZeros 2 mi ++ ":" ++ padZeros 2 ss ++
  "." ++ padZeros 3 mmm ++ "Z"

/-- The hexadecimal digit character for `n < 16`. -/
def hexDigit (n : Nat) : Char :=
  if n < 10 then Char.ofNat (48 + n) else Char.ofNat (87 + (n - 10))

/-- Four-digit hexadecimal rendering, for `\u` escapes. -/
def hex4 (n : Nat) : String :=
  String.mk [hexDigit (n / 4096 % 16), hexDigit (n / 256 % 16),
             hexDigit (n / 16 % 16), hexDigit (n % 16)]

/-- JSON string escaping of one character, as `JSON.stringify` emits it. -/
def jsonEscapeChar (c : Char) : String :=
  if c = '"' then "\\\""
  else if c = '\\' then "\\\\"
  else if c = '\n' then "\\n"
  else if c = '\r' then "\\r"
  else if c = '\t' then "\\t"
  else if c = '\x08' then "\\b"
  else if c = '\x0c' then "\\f"
  else if c.toNat < 32 then "\\u" ++ hex4 c.toNat
  else String.singleton c

/-- A JSON string literal for `s`. -/
def jsonQuote (s : String) : String :=
  "\"" ++ String.join (s.data.map jsonEscapeChar) ++ "\""

/-- Models `JSON.stringify` on an array of strings, as used for the
`platforms` field. -/
def jsonStringifyArr (l : List String) : String :=
  "[" ++ String.intercalate "," (l.map jsonQuote) ++ "]"

/-- One entry appended to the outgoing `FormData`: either a text value
or a binary file. -/
inductive FormPart where
  | text (s : String)
  | file (f : SMFile)
deriving DecidableEq, Repr

/-- The multipart body built in `onSubmit`, as the ordered list of
`formData.append` calls: name paired with value. -/
def buildPayload (d : FormValues) (t : Nat) (images : List SMFile) :
    List (String × FormPart) :=
  [("postTitle", FormPart.text d.postTitle),
   ("caption", FormPart.text d.caption),
   ("hashtags", FormPart.text (d.hashtags.getD "")),
   ("platforms", FormPart.text (jsonStringifyArr d.platforms)),
   ("scheduledDate", FormPart.text (toISOString t))] ++
  images.enum.map (fun p => ("image_" ++ toString p.1, FormPart.file p.2))

/-- An outbound HTTP POST: target URL and multipart body. -/
structure Request where
  url : String
  payload : List (String × FormPart)
deriving DecidableEq, Repr

/-- The user-visible toast notifications the component can raise. -/
inductive Toast where
  | tooManyImages
  | submitSuccess
  | submitFailure
  | promptRequired
  | generateSuccess
  | generateFailure
deriving DecidableEq, Repr

/-- Local state of one SocialMediaForm component instance: the form
values, the `uploadedImages` list, the `isSubmitting` flag and the
in-flight submission request being awaited, if any. -/
structure CState where
  formValues : FormValues
  uploadedImages : List SMFile
  isSubmitting : Bool
  pending : Option Request
deriving DecidableEq, Repr

/-- How the awaited `fetch` of a submission resolves: a response with
its `response.ok` flag, or a transport-level rejection. -/
inductive FetchResult where
  | resp (ok : Bool)
  | reject
deriving DecidableEq, Repr

/-- Discrete events driving one component instance: a click on the
submit control (with an oracle saying whether serialization throws
before the fetch is dispatched), or the resolution of the in-flight
fetch. -/
inductive Ev where
  | submitClick (serThrow : Bool)
  | submitResolved (r : FetchResult)
deriving DecidableEq, Repr

/-- Observable outcome of one event: the successor state, the POST
requests dispatched during the step, the toasts raised, and the field
errors displayed when validation rejected the draft. -/
structure StepOut where
  state : CState
  requests : List Request
  toasts : List Toast
  errorsShown : Option FieldErrors
deriving DecidableEq, Repr

/-- One step of the component. A `submitClick` first passes the
disabled-button gate (`disabled={isSubmitting}`), then
`form.handleSubmit` resolves the zod schema: on errors it displays
them and never calls `onSubmit`; on a valid draft `onSubmit` sets
`isSubmitting`, builds the multipart payload and dispatches one POST
to the draft's webhook URL (unless serialization throws, which lands
in the catch/finally: failure toast, flag cleared, nothing sent). A
`submitResolved` runs the rest of `onSubmit`: on `response.ok` a
success toast, `form.reset()` to the default values and clearing of
`uploadedImages`; otherwise the thrown error reaches the catch block,
which raises the failure toast and touches nothing else; `finally`
clears `isSubmitting` in every branch. -/
def step (st : CState) (ev : Ev) : StepOut :=
  match ev with
  | Ev.submitClick serThrow =>
    if st.isSubmitting then ⟨st, [], [], none⟩
    else
      let errs := validateForm st.formValues
      if hasErrors errs then ⟨st, [], [], some errs⟩
      else
        match st.formValues.scheduledDate with
        | none => ⟨st, [], [], none⟩
        | some t =>
          if serThrow then ⟨st, [], [Toast.submitFailure], none⟩
          else
            let req : Request :=
              ⟨st.formValues.webhookUrl, buildPayload st.formValues t st.uploadedImages⟩
            ⟨{ st with isSubmitting := true, pending := some req }, [req], [], none⟩
  | Ev.submitResolved r =>
    match st.pending with
    | none => ⟨st, [], [], none⟩
    | some _ =>
      match r with
      | FetchResult.resp true =>
        ⟨⟨defaultValues, [], false, none⟩, [], [Toast.submitSuccess], none⟩
      | FetchResult.resp false =>
        ⟨{ st with isSubmitting := false, pending := none }, [], [Toast.submitFailure], none⟩
      | FetchResult.reject =>
        ⟨{ st with isSubmitting := false, pending := none }, [], [Toast.submitFailure], none⟩

/-- Local state of the AI-variant component instance (src/unnamed/part_000):
the same core state as the plain variant — its form, image and
submission handlers are line-for-line identical — plus the AI modal
visibility, the prompt input and the `isGenerating` flag. -/
structure AIState where
  core : CState
  showAIModal : Bool
  aiPrompt : String
  isGenerating : Bool
deriving DecidableEq, Repr

/-- The JSON body the AI endpoint may answer with, restricted to the
three fields `handleAIGenerate` reads; `none` models an absent key. -/
structure AIResponse where
  caption : Option String
  content : Option String
  hashtags : Option String
deriving DecidableEq, Repr

/-- How the AI-assist `fetch` resolves: a response with its `ok` flag
and parsed JSON, or a thrown error (transport failure or json parse
failure). -/
inductive AIOutcome where
  | resp (ok : Bool) (json : AIResponse)
  | thrown
deriving DecidableEq, Repr

/-- The fixed, hardcoded AI-assist endpoint of `handleAIGenerate`. -/
def aiEndpoint : String :=
  "https://n8n-rksa.onrender.com/webhook/d5799868-0383-44fc-ba56-17dc7399bc69/chat"

/-- An outbound AI-assist POST: the fixed endpoint URL and the JSON
body `{ prompt }`. -/
structure AIRequest where
  url : String
  prompt : String
deriving DecidableEq, Repr

/-- Models JavaScript `String.prototype.trim`: strip leading and
trailing whitespace. -/
def jsTrim (s : String) : String :=
  String.mk
    (((s.data.dropWhile Char.isWhitespace).reverse.dropWhile Char.isWhitespace).reverse)

/-- JavaScript `a || b` on a possibly-absent string: an absent value
and the empty string are both falsy and fall through to `b`. -/
def jsOr (a : Option String) (b : String) : String :=
  match a with
  | none => b
  | some s => if s = "" then b else s

/-- Observable outcome of one `handleAIGenerate` call. -/
structure AIStepOut where
  state : AIState
  requests : List AIRequest
  toasts : List Toast
deriving DecidableEq, Repr

/-- `handleAIGenerate` from the AI variant, run to completion against
an oracle for the fetch outcome. An empty/whitespace prompt is
rejected up front with a toast and no request. Otherwise one POST of
`{ prompt }` goes to the fixed endpoint; on `response.ok` the JSON is
read and `form.setValue` overwrites `caption` with
`data.caption || data.content || ''` and `hashtags` with
`data.hashtags || ''`, a success toast fires, the modal closes and the
prompt is cleared; on a non-ok response or a thrown error the catch
block raises the failure toast and changes nothing else; `finally`
clears `isGenerating`. -/
def handleAIGenerate (st : AIState) (out : AIOutcome) : AIStepOut :=
  if jsTrim st.aiPrompt = "" then ⟨st, [], [Toast.promptRequired]⟩
  else
    let req : AIRequest := ⟨aiEndpoint, st.aiPrompt⟩
    match out with
    | AIOutcome.resp true json =>
      ⟨{ st with
          core := { st.core with
            formValues := { st.core.formValues with
              caption := jsOr json.caption (jsOr json.content "")
              hashtags := some (jsOr json.hashtags "") } }
          showAIModal := false
          aiPrompt := ""
          isGenerating := false },
        [req], [Toast.generateSuccess]⟩
    | AIOutcome.resp false _ =>
      ⟨{ st with isGenerating := false }, [req], [Toast.generateFailure]⟩
    | AIOutcome.thrown =>
      ⟨{ st with isGenerating := false }, [req], [Toast.generateFailure]⟩

/-- One operation on the attachment list, for stating its invariant:
an `handleImageUpload` call with a candidate batch, a `removeImage`
call, or the `setUploadedImages([])` reset performed on successful
submission. -/
inductive ImgOp where
  | add (files : List SMFile)
  | remove (index : Nat)
  | reset
deriving DecidableEq, Repr

/-- Effect of one attachment operation on the `uploadedImages` list. -/
def applyImgOp (images : List SMFile) (op : ImgOp) : List SMFile :=
  match op with
  | ImgOp.add files => (handleImageUpload images files).images
  | ImgOp.remove index => removeImage images index
  | ImgOp.reset => []

/-- The attachment list after a sequence of operations, starting from
the empty list the component mounts with. -/
def runImgOps (ops : List ImgOp) : List SMFile :=
  ops.foldl applyImgOp []

/-- A draft filled in completely and validly, used as concrete input. -/
def sampleValid : FormValues :=
  { postTitle := "Launch"
    caption := "We shipped!"
    hashtags := some "#launch"
    platforms := ["facebook"]
    scheduledDate := some 1760140800000
    webhookUrl := "https://example.com/hook" }

/-- A small valid JPEG candidate file. -/
def goodJpeg : SMFile := ⟨"image/jpeg", 100⟩

/-- A candidate file failing the MIME-type predicate. -/
def badText : SMFile := ⟨"text/plain", 5⟩

/-- C7: `handleImageUpload` accepts a candidate exactly when its MIME
type is image/jpeg or image/png and its size is at most 10×1024×1024
bytes, and when the batch is not rejected for count, the new list is
the old one with the accepted candidates appended at the end in their
selection order. -/
theorem upload_accepts_exactly_valid_and_appends
    (current files : List SMFile) (f : SMFile)
    (h : (handleImageUpload current files).tooManyToast = false) :
    (handleImageUpload current files).images = current ++ files.filter isValidFile ∧
    (isValidFile f = true ↔
      ((f.type = "image/jpeg" ∨ f.type = "image/png") ∧ f.size ≤ 10 * 1024 * 1024)) := by
  constructor
  · by_cases hc : (files.filter isValidFile).length + current.length > 4
    · simp [handleImageUpload, hc] at h
    · simp [handleImageUpload, hc]
  · simp [isValidFile]

/-- Witness for C7 at a concrete batch. -/
theorem upload_accepts_exactly_valid_and_appends_fact :
    (handleImageUpload [] [goodJpeg, badText]).tooManyToast = false ∧
    (handleImageUpload [] [goodJpeg, badText]).images =
      [] ++ [goodJpeg, badText].filter isValidFile ∧
    (isValidFile badText = true ↔
      ((badText.type = "image/jpeg" ∨ badText.type = "image/png") ∧
        badText.size ≤ 10 * 1024 * 1024)) :=
  ⟨by decide,
   upload_accepts_exactly_valid_and_appends [] [goodJpeg, badText] badText (by decide)⟩

/-- A batch of raw length 5 of which exactly one file passes the
type/size filter. -/
def oversizedBatch : List SMFile := [goodJpeg, badText, badText, badText, badText]

/-- C1 counterexample: on an empty attachment list and a raw batch of
5 candidates of which one is valid, the code does NOT reject the batch
wholesale: the valid file is appended and no "maximum of 4 images"
warning fires, although the raw batch length exceeds the cap. -/
theorem upload_cap_ignores_raw_length :
    oversizedBatch.length + ([] : List SMFile).length > 4 ∧
    handleImageUpload [] oversizedBatch = ⟨[goodJpeg], false⟩ := by
  decide

/-- C1 amended: the "too many" check compares the current count with
the length of the batch AFTER type/size filtering: a batch is rejected
wholesale (list unchanged, warning emitted) exactly when the accepted
subset together with the current list would exceed 4; otherwise the
accepted subset is appended, regardless of the raw batch length. -/
theorem upload_cap_checks_filtered_length (current files : List SMFile) :
    ((files.filter isValidFile).length + current.length > 4 →
      handleImageUpload current files = ⟨current, true⟩) ∧
    ((files.filter isValidFile).length + current.length ≤ 4 →
      handleImageUpload current files = ⟨current ++ files.filter isValidFile, false⟩) := by
  refine ⟨fun h => ?_, fun h => ?_⟩ <;> simp only [handleImageUpload]
  · rw [if_pos h]
  · rw [if_neg (by omega)]

/-- Witness for the amended C1 on both sides of the threshold. -/
theorem upload_cap_checks_filtered_length_fact :
    (([goodJpeg] : List SMFile).filter isValidFile).length +
      ([goodJpeg, goodJpeg, goodJpeg, goodJpeg] : List SMFile).length > 4 ∧
    handleImageUpload [goodJpeg, goodJpeg, goodJpeg, goodJpeg] [goodJpeg] =
      ⟨[goodJpeg, goodJpeg, goodJpeg, goodJpeg], true⟩ ∧
    ((oversizedBatch.filter isValidFile).length + ([] : List SMFile).length ≤ 4 ∧
      handleImageUpload [] oversizedBatch = ⟨[] ++ oversizedBatch.filter isValidFile, false⟩) :=
  ⟨by decide,
   (upload_cap_checks_filtered_length [goodJpeg, goodJpeg, goodJpeg, goodJpeg] [goodJpeg]).1
     (by decide),
   by decide,
   (upload_cap_checks_filtered_length [] oversizedBatch).2 (by decide)⟩

/-- The result of `removeImage` is a sublist of its input. -/
theorem removeImage_sublist (l : List SMFile) (i : Nat) :
    (removeImage l i).Sublist l := by
  have h1 : (l.enum.filter (fun p => p.1 != i)).Sublist l.enum :=
    List.filter_sublist _
  have h2 := h1.map Prod.snd
  rwa [List.enum_map_snd] at h2

/-- Every attachment operation preserves the attachment invariant. -/
theorem applyImgOp_preserves (l : List SMFile) (op : ImgOp)
    (hlen : l.length ≤ 4) (hval : ∀ f ∈ l, isValidFile f = true) :
    (applyImgOp l op).length ≤ 4 ∧ ∀ f ∈ applyImgOp l op, isValidFile f = true := by
  match op with
  | ImgOp.add files =>
    simp only [applyImgOp, handleImageUpload]
    split
    · exact ⟨hlen, hval⟩
    · rename_i hle
      constructor
      · rw [List.length_append]
        omega
      · intro f hf
        rcases List.mem_append.1 hf with hf | hf
        · exact hval f hf
        · exact List.of_mem_filter hf
  | ImgOp.remove i =>
    have hs := removeImage_sublist l i
    exact ⟨le_trans hs.length_le hlen, fun f hf => hval f (hs.subset hf)⟩
  | ImgOp.reset => simp [applyImgOp]

/-- The invariant holds along any foldl over attachment operations. -/
theorem foldl_imgOps_preserves (ops : List ImgOp) (l : List SMFile)
    (hlen : l.length ≤ 4) (hval : ∀ f ∈ l, isValidFile f = true) :
    (ops.foldl applyImgOp l).length ≤ 4 ∧
    ∀ f ∈ ops.foldl applyImgOp l, isValidFile f = true := by
  induction ops generalizing l with
  | nil => exact ⟨hlen, hval⟩
  | cons op ops ih =>
    have h := applyImgOp_preserves l op hlen hval
    exact ih (applyImgOp l op) h.1 h.2

/-- C8: after any sequence of add/remove/reset operations starting
from the empty list, the attachment list has at most 4 elements and
every element passed the type/size predicate when accepted. -/
theorem attachment_invariant (ops : List ImgOp) :
    (runImgOps ops).length ≤ 4 ∧ ∀ f ∈ runImgOps ops, isValidFile f = true :=
  foldl_imgOps_preserves ops [] (by decide) (by intro f hf; cases hf)

/-- A draft that passes validation carries a scheduled date. -/
theorem scheduledDate_some_of_valid (d : FormValues)
    (h : hasErrors (validateForm d) = false) : ∃ t, d.scheduledDate = some t := by
  cases hd : d.scheduledDate with
  | none => exact absurd h (by simp [hasErrors, validateForm, hd])
  | some t => exact ⟨t, rfl⟩

/-- C2: when the draft violates any rule, a submit click leaves the
state untouched, dispatches no request, and displays the resolved
field errors, in which every violated rule contributes an error to its
own field. -/
theorem submit_invalid_rejected (st : CState) (b : Bool)
    (hsub : st.isSubmitting = false)
    (herr : hasErrors (validateForm st.formValues) = true) :
    step st (Ev.submitClick b) = ⟨st, [], [], some (validateForm st.formValues)⟩ ∧
    (st.formValues.postTitle.length < 1 → (validateForm st.formValues).postTitle ≠ []) ∧
    (st.formValues.postTitle.length > 100 → (validateForm st.formValues).postTitle ≠ []) ∧
    (st.formValues.caption.length < 1 → (validateForm st.formValues).caption ≠ []) ∧
    (st.formValues.caption.length > 2200 → (validateForm st.formValues).caption ≠ []) ∧
    (st.formValues.platforms = [] → (validateForm st.formValues).platforms ≠ []) ∧
    (st.formValues.scheduledDate = none →
      (validateForm st.formValues).scheduledDate ≠ []) ∧
    (isValidUrl st.formValues.webhookUrl = false →
      (validateForm st.formValues).webhookUrl ≠ []) := by
  refine ⟨by simp [step, hsub, herr], ?_, ?_, ?_, ?_, ?_, ?_, ?_⟩
  · intro h
    simp [validateForm, h]
  · intro h
    have h1 : ¬ st.formValues.postTitle.length < 1 := by omega
    simp [validateForm, h, h1]
  · intro h
    simp [validateForm, h]
  · intro h
    have h1 : ¬ st.formValues.caption.length < 1 := by omega
    simp [validateForm, h, h1]
  · intro h
    simp [validateForm, h]
  · intro h
    simp [validateForm, h]
  · intro h
    simp [validateForm, h]

/-- Witness for C2: submitting the freshly mounted empty draft is
rejected in place with its errors shown. -/
theorem submit_invalid_rejected_fact :
    step ⟨defaultValues, [], false, none⟩ (Ev.submitClick false) =
      ⟨⟨defaultValues, [], false, none⟩, [], [], some (validateForm defaultValues)⟩ :=
  (submit_invalid_rejected ⟨defaultValues, [], false, none⟩ false rfl (by decide)).1

/-- C9: while `isSubmitting` is set the submit control is disabled, so
a further submit click is a no-op: no request is dispatched and
nothing changes. -/
theorem submit_single_flight (st : CState) (b : Bool)
    (h : st.isSubmitting = true) :
    step st (Ev.submitClick b) = ⟨st, [], [], none⟩ := by
  simp [step, h]

/-- Witness for C9 at a concrete in-flight state. -/
theorem submit_single_flight_fact :
    step ⟨sampleValid, [goodJpeg], true, some ⟨"https://example.com/hook", []⟩⟩
        (Ev.submitClick false) =
      ⟨⟨sampleValid, [goodJpeg], true, some ⟨"https://example.com/hook", []⟩⟩,
        [], [], none⟩ :=
  submit_single_flight _ false rfl

/-- C3: a submission that resolves with a non-2xx response or a
transport rejection raises the failure toast and leaves the draft and
the attachments exactly as they were; likewise an exception thrown
during serialization of a valid draft raises the failure toast and
changes nothing. -/
theorem submit_failure_preserves (st su : CState) (req : Request) (r : FetchResult) :
    (st.pending = some req → r ≠ FetchResult.resp true →
      (step st (Ev.submitResolved r)).state.formValues = st.formValues ∧
      (step st (Ev.submitResolved r)).state.uploadedImages = st.uploadedImages ∧
      (step st (Ev.submitResolved r)).toasts = [Toast.submitFailure] ∧
      (step st (Ev.submitResolved r)).requests = []) ∧
    (su.isSubmitting = false → hasErrors (validateForm su.formValues) = false →
      step su (Ev.submitClick true) = ⟨su, [], [Toast.submitFailure], none⟩) := by
  constructor
  · intro hp hr
    match r with
    | FetchResult.resp true => exact absurd rfl hr
    | FetchResult.resp false => simp [step, hp]
    | FetchResult.reject => simp [step, hp]
  · intro h1 h2
    obtain ⟨t, ht⟩ := scheduledDate_some_of_valid su.formValues h2
    simp [step, h1, h2, ht]

/-- Witness for C3: a non-2xx resolution on an in-flight state, and a
serialization throw on a valid idle state, both preserve everything. -/
theorem submit_failure_preserves_fact :
    ((step ⟨sampleValid, [goodJpeg], true, some ⟨"https://example.com/hook", []⟩⟩
        (Ev.submitResolved (FetchResult.resp false))).state.formValues = sampleValid ∧
      (step ⟨sampleValid, [goodJpeg], true, some ⟨"https://example.com/hook", []⟩⟩
        (Ev.submitResolved (FetchResult.resp false))).state.uploadedImages = [goodJpeg] ∧
      (step ⟨sampleValid, [goodJpeg], true, some ⟨"https://example.com/hook", []⟩⟩
        (Ev.submitResolved (FetchResult.resp false))).toasts = [Toast.submitFailure] ∧
      (step ⟨sampleValid, [goodJpeg], true, some ⟨"https://example.com/hook", []⟩⟩
        (Ev.submitResolved (FetchResult.resp false))).requests = []) ∧
    step ⟨sampleValid, [goodJpeg], false, none⟩ (Ev.submitClick true) =
      ⟨⟨sampleValid, [goodJpeg], false, none⟩, [], [Toast.submitFailure], none⟩ :=
  ⟨(submit_failure_preserves
      ⟨sampleValid, [goodJpeg], true, some ⟨"https://example.com/hook", []⟩⟩
      ⟨sampleValid, [goodJpeg], false, none⟩
      ⟨"https://example.com/hook", []⟩ (FetchResult.resp false)).1 rfl (by decide),
   (submit_failure_preserves
      ⟨sampleValid, [goodJpeg], true, some ⟨"https://example.com/hook", []⟩⟩
      ⟨sampleValid, [goodJpeg], false, none⟩
      ⟨"https://example.com/hook", []⟩ (FetchResult.resp false)).2 rfl (by decide)⟩

/-- C4: a 2xx resolution raises the success toast and resets the form
to the default values with an empty attachment list; submitting the
resulting empty draft again is rejected by validation with no request
dispatched. -/
theorem submit_success_resets (st : CState) (req : Request) (b : Bool)
    (hp : st.pending = some req) :
    step st (Ev.submitResolved (FetchResult.resp true)) =
      ⟨⟨defaultValues, [], false, none⟩, [], [Toast.submitSuccess], none⟩ ∧
    hasErrors (validateForm defaultValues) = true ∧
    step ⟨defaultValues, [], false, none⟩ (Ev.submitClick b) =
      ⟨⟨defaultValues, [], false, none⟩, [], [], some (validateForm defaultValues)⟩ := by
  refine ⟨by simp [step, hp], by decide, ?_⟩
  cases b <;> decide

/-- Witness for C4 at a concrete in-flight state. -/
theorem submit_success_resets_fact :
    step ⟨sampleValid, [goodJpeg], true, some ⟨"https://example.com/hook", []⟩⟩
        (Ev.submitResolved (FetchResult.resp true)) =
      ⟨⟨defaultValues, [], false, none⟩, [], [Toast.submitSuccess], none⟩ ∧
    hasErrors (validateForm defaultValues) = true ∧
    step ⟨defaultValues, [], false, none⟩ (Ev.submitClick false) =
      ⟨⟨defaultValues, [], false, none⟩, [], [], some (validateForm defaultValues)⟩ :=
  submit_success_resets
    ⟨sampleValid, [goodJpeg], true, some ⟨"https://example.com/hook", []⟩⟩
    ⟨"https://example.com/hook", []⟩ false rfl

/-- C5: a submit click on a valid idle draft dispatches exactly one
POST to the draft's webhook URL; its multipart body starts with the
five text fields postTitle, caption, hashtags (empty string when
absent), platforms (JSON array of strings) and scheduledDate (ISO-8601
string), followed contiguously by `image_i` entries carrying the
attachments in sequence order from index 0. -/
theorem submit_builds_single_request (st : CState) (t : Nat)
    (hsub : st.isSubmitting = false)
    (hval : hasErrors (validateForm st.formValues) = false)
    (hd : st.formValues.scheduledDate = some t)
    (_hcap : st.uploadedImages.length ≤ 4) :
    (step st (Ev.submitClick false)).requests.length = 1 ∧
    ∀ rq ∈ (step st (Ev.submitClick false)).requests,
      rq.url = st.formValues.webhookUrl ∧
      rq.payload.length = 5 + st.uploadedImages.length ∧
      rq.payload.take 5 =
        [("postTitle", FormPart.text st.formValues.postTitle),
         ("caption", FormPart.text st.formValues.caption),
         ("hashtags", FormPart.text (st.formValues.hashtags.getD "")),
         ("platforms", FormPart.text (jsonStringifyArr st.formValues.platforms)),
         ("scheduledDate", FormPart.text (toISOString t))] ∧
      ∀ i, i < st.uploadedImages.length →
        rq.payload.get? (5 + i) =
          (st.uploadedImages.get? i).map
            (fun f => ("image_" ++ toString i, FormPart.file f)) := by
  have hstep : (step st (Ev.submitClick false)).requests =
      [⟨st.formValues.webhookUrl, buildPayload st.formValues t st.uploadedImages⟩] := by
    simp [step, hsub, hval, hd]
  rw [hstep]
  refine ⟨rfl, ?_⟩
  intro rq hrq
  rw [List.mem_singleton] at hrq
  subst hrq
  refine ⟨rfl, ?_, ?_, ?_⟩
  · simp only [buildPayload, List.length_append, List.length_map, List.enum_length,
      List.length_cons, List.length_nil]
  · simp [buildPayload]
  · intro i hi
    show (buildPayload st.formValues t st.uploadedImages).get? (5 + i) = _
    unfold buildPayload
    rw [List.get?_append_right (by simp)]
    simp only [List.length_cons, List.length_nil]
    have h5 : 5 + i - (0 + 1 + 1 + 1 + 1 + 1) = i := by omega
    rw [h5, List.get?_map, List.get?_enum, Option.map_map]
    rfl

/-- Witness for C5: the sample draft with one attachment produces one
request with the expected six entries. -/
theorem submit_builds_single_request_fact :
    (step ⟨sampleValid, [goodJpeg], false, none⟩ (Ev.submitClick false)).requests.length
      = 1 ∧
    ∀ rq ∈ (step ⟨sampleValid, [goodJpeg], false, none⟩ (Ev.submitClick false)).requests,
      rq.url = sampleValid.webhookUrl ∧
      rq.payload.length = 5 + [goodJpeg].length ∧
      rq.payload.take 5 =
        [("postTitle", FormPart.text sampleValid.postTitle),
         ("caption", FormPart.text sampleValid.caption),
         ("hashtags", FormPart.text (sampleValid.hashtags.getD "")),
         ("platforms", FormPart.text (jsonStringifyArr sampleValid.platforms)),
         ("scheduledDate", FormPart.text (toISOString 1760140800000))] ∧
      ∀ i, i < [goodJpeg].length →
        rq.payload.get? (5 + i) =
          (([goodJpeg] : List SMFile).get? i).map
            (fun f => ("image_" ++ toString i, FormPart.file f)) :=
  submit_builds_single_request ⟨sampleValid, [goodJpeg], false, none⟩ 1760140800000
    rfl (by decide) rfl (by decide)

/-- Concrete AI response whose caption key is present but holds the
empty string, while the content key holds text. -/
def cexAIJson : AIResponse := ⟨some "", some "Generated text", some "#tag"⟩

/-- Concrete AI-variant state with a nonempty prompt. -/
def cexAISt : AIState := ⟨⟨defaultValues, [], false, none⟩, true, "describe my post", false⟩

/-- C6 counterexample: on a successful response whose `caption` key is
present (but the empty string) and whose `content` key holds text, the
code does not prefer the present `caption` key: the caption field ends
up holding the `content` value, because the JavaScript `||` chain
treats the present empty string as absent. -/
theorem ai_generate_caption_not_preferred_when_falsy :
    cexAIJson.caption = some "" ∧
    cexAIJson.content = some "Generated text" ∧
    (handleAIGenerate cexAISt (AIOutcome.resp true cexAIJson)).state.core.formValues.caption
      = "Generated text" := by
  decide

/-- C6 amended: on a successful AI response, `handleAIGenerate`
overwrites exactly the caption and hashtags fields — the caption from
the `caption` key when it is present and non-empty, else from the
`content` key when that is present and non-empty, else the empty
string (JavaScript truthiness, never an error); the hashtags likewise
with empty-string fallback — while title, platforms, scheduled date,
webhook URL and attachments are unchanged, the modal is closed, the
prompt is cleared, and exactly one request was sent to the fixed
endpoint. -/
theorem ai_generate_updates_caption_hashtags (st : AIState) (json : AIResponse)
    (h : jsTrim st.aiPrompt ≠ "") :
    (∀ c, json.caption = some c → c ≠ "" →
      (handleAIGenerate st (AIOutcome.resp true json)).state.core.formValues.caption = c) ∧
    ((json.caption = none ∨ json.caption = some "") →
      ∀ c, json.content = some c → c ≠ "" →
        (handleAIGenerate st (AIOutcome.resp true json)).state.core.formValues.caption = c) ∧
    ((json.caption = none ∨ json.caption = some "") →
      (json.content = none ∨ json.content = some "") →
      (handleAIGenerate st (AIOutcome.resp true json)).state.core.formValues.caption = "") ∧
    (∀ s, json.hashtags = some s → s ≠ "" →
      (handleAIGenerate st (AIOutcome.resp true json)).state.core.formValues.hashtags
        = some s) ∧
    ((json.hashtags = none ∨ json.hashtags = some "") →
      (handleAIGenerate st (AIOutcome.resp true json)).state.core.formValues.hashtags
        = some "") ∧
    (handleAIGenerate st (AIOutcome.resp true json)).state.core.formValues.postTitle
      = st.core.formValues.postTitle ∧
    (handleAIGenerate st (AIOutcome.resp true json)).state.core.formValues.platforms
      = st.core.formValues.platforms ∧
    (handleAIGenerate st (AIOutcome.resp true json)).state.core.formValues.scheduledDate
      = st.core.formValues.scheduledDate ∧
    (handleAIGenerate st (AIOutcome.resp true json)).state.core.formValues.webhookUrl
      = st.core.formValues.webhookUrl ∧
    (handleAIGenerate st (AIOutcome.resp true json)).state.core.uploadedImages
      = st.core.uploadedImages ∧
    (handleAIGenerate st (AIOutcome.resp true json)).state.showAIModal = false ∧
    (handleAIGenerate st (AIOutcome.resp true json)).state.aiPrompt = "" ∧
    (handleAIGenerate st (AIOutcome.resp true json)).toasts = [Toast.generateSuccess] ∧
    (handleAIGenerate st (AIOutcome.resp true json)).requests = [⟨aiEndpoint, st.aiPrompt⟩]
    := by
  have key : handleAIGenerate st (AIOutcome.resp true json) =
      ⟨{ st with
          core := { st.core with
            formValues := { st.core.formValues with
              caption := jsOr json.caption (jsOr json.content "")
              hashtags := some (jsOr json.hashtags "") } }
          showAIModal := false
          aiPrompt := ""
          isGenerating := false },
        [⟨aiEndpoint, st.aiPrompt⟩], [Toast.generateSuccess]⟩ := by
    simp only [handleAIGenerate]
    rw [if_neg h]
  rw [key]
  refine ⟨?_, ?_, ?_, ?_, ?_, rfl, rfl, rfl, rfl, rfl, rfl, rfl, rfl, rfl⟩
  · intro c hc hne
    simp [jsOr, hc, hne]
  · intro hcap c hc hne
    rcases hcap with h1 | h1 <;> simp [jsOr, h1, hc, hne]
  · intro hcap hcon
    rcases hcap with h1 | h1 <;> rcases hcon with h2 | h2 <;> simp [jsOr, h1, h2]
  · intro s hs hne
    simp [jsOr, hs, hne]
  · intro hh
    rcases hh with h1 | h1 <;> simp [jsOr, h1]

/-- The AI-variant state and response used as the concrete witness for
the amended C6. -/
def aiWitnessRes : AIStepOut :=
  handleAIGenerate ⟨⟨sampleValid, [], false, none⟩, true, "a post", false⟩
    (AIOutcome.resp true ⟨some "New caption", none, some "#new"⟩)

/-- Witness for the amended C6: a concrete successful response fills
caption and hashtags, closes the modal and clears the prompt. -/
theorem ai_generate_updates_caption_hashtags_fact :
    aiWitnessRes.state.core.formValues.caption = "New caption" ∧
    aiWitnessRes.state.core.formValues.hashtags = some "#new" ∧
    aiWitnessRes.state.core.formValues.postTitle = sampleValid.postTitle ∧
    aiWitnessRes.state.showAIModal = false ∧
    aiWitnessRes.state.aiPrompt = "" :=
  have h := ai_generate_updates_caption_hashtags
    ⟨⟨sampleValid, [], false, none⟩, true, "a post", false⟩
    ⟨some "New caption", none, some "#new"⟩ (by decide)
  ⟨h.1 "New caption" rfl (by decide),
   h.2.2.2.1 "#new" rfl (by decide),
   h.2.2.2.2.2.1,
   h.2.2.2.2.2.2.2.2.2.2.1,
   h.2.2.2.2.2.2.2.2.2.2.2.1⟩

/-- A caption string of 2201 characters, one over the schema bound. -/
def longCaption : String := String.mk (List.replicate 2201 'a')

/-- A valid AI-variant state with a nonempty prompt. -/
def aiStValid : AIState := ⟨⟨sampleValid, [], false, none⟩, true, "a long post", false⟩

/-- The component state after a successful generation whose caption
text has 2201 characters. -/
def aiResLong : AIStepOut :=
  handleAIGenerate aiStValid (AIOutcome.resp true ⟨some longCaption, none, some "#x"⟩)

/-- The draft left behind by that generation. -/
def fvLong : FormValues := { sampleValid with caption := longCaption, hashtags := some "#x" }

/-- C10: `handleAIGenerate` writes the response text into the form
without validation: starting from a draft that passes validation, a
successful response carrying a 2201-character caption leaves the draft
in violation of the caption bound; the next submit click is rejected
by validation, shows the caption error, and dispatches no request. -/
theorem ai_generate_bypasses_validation :
    hasErrors (validateForm aiStValid.core.formValues) = false ∧
    aiResLong.state.core.formValues.caption.length = 2201 ∧
    (validateForm aiResLong.state.core.formValues).caption =
      ["Caption must be under 2200 characters"] ∧
    hasErrors (validateForm aiResLong.state.core.formValues) = true ∧
    step aiResLong.state.core (Ev.submitClick false) =
      ⟨aiResLong.state.core, [], [], some (validateForm aiResLong.state.core.formValues)⟩
    := by
  have hlen : longCaption.length = 2201 := by
    rw [longCaption, String.length_mk, List.length_replicate]
  have hne : longCaption ≠ "" := by
    intro hc
    rw [hc] at hlen
    simp at hlen
  have hx : ("#x" : String) ≠ "" := by decide
  have hprompt : jsTrim "a long post" ≠ "" := by decide
  have key : aiResLong.state.core = ⟨fvLong, [], false, none⟩ := by
    simp only [aiResLong, aiStValid, handleAIGenerate]
    rw [if_neg hprompt]
    simp [fvLong, jsOr, hne, hx]
  have h1 : ¬ longCaption.length < 1 := by omega
  have h2 : longCaption.length > 2200 := by omega
  have hcap : (validateForm fvLong).caption = ["Caption must be under 2200 characters"] := by
    simp [validateForm, fvLong, h1, h2]
  have herr : hasErrors (validateForm fvLong) = true := by
    simp [hasErrors, validateForm, fvLong, h1, h2]
  refine ⟨by decide, ?_, ?_, ?_, ?_⟩
  · rw [key]
    exact hlen
  · rw [key]
    exact hcap
  · rw [key]
    exact herr
  · rw [key]
    simp [step, herr]
